import Mathlib

/-!
# A formal model of the terminal snake game (src/snake_game.py)

This file gives a shallow embedding of the core logic of the snake game:
the snake movement and growth rule, collision detection, input resolution,
the move-timing decision of the game loop, random placement of obstacles
and food, and the per-difficulty leaderboard operations.

Conventions used throughout:
* grid positions are pairs `(row, col)` of integers, as in the Python code
  where a cell is the two-element list `[row, col]`;
* the Python `curses` key codes are kept as integer constants;
* wall-clock times (`time.time()` values, seconds) are modelled as
  rationals, which represent the decimal constants `0.05`, `0.6`, ... of
  the source exactly;
* calls to `random.randint(a, b)` are modelled by drawing one integer of
  entropy from an explicit stream and mapping it into `[a, b]`;
* the unbounded rejection-sampling `while True:` loops of
  `create_obstacles` and `create_food` are modelled by recursion on the
  entropy stream, returning `none` when the stream is exhausted (the
  situation in which the Python loop would keep spinning).
-/

/-- A grid cell `[row, col]` of the Python code. -/
abbrev Pos : Type := ℤ × ℤ

/-- `curses.KEY_DOWN`. -/
def KEY_DOWN : ℤ := 258

/-- `curses.KEY_UP`. -/
def KEY_UP : ℤ := 259

/-- `curses.KEY_LEFT`. -/
def KEY_LEFT : ℤ := 260

/-- `curses.KEY_RIGHT`. -/
def KEY_RIGHT : ℤ := 261

/-- The string `'force_move'` returned by `get_input`; `Option InputSignal`
models the Python return value `'force_move'` or `None`. -/
inductive InputSignal : Type where
  | force_move : InputSignal
deriving DecidableEq, Repr

/-- `SnakeGame.get_input` (src/snake_game.py lines 174-199), as a pure
function of the polled key (`-1` when no key is pressed), the current
direction and the current `game_over` flag.  It returns the new direction,
the new `game_over` flag, and the returned signal.  The Python `return
'force_move'` statements exit before the quit-key check; a reversal key
falls through the direction `elif` into the quit-key check, which no arrow
key can satisfy. -/
def get_input (key : ℤ) (direction : ℤ) (game_over : Bool) :
    ℤ × Bool × Option InputSignal :=
  if key ≠ -1 then
    if key = KEY_UP ∨ key = KEY_DOWN ∨ key = KEY_LEFT ∨ key = KEY_RIGHT then
      if key = direction then
        (direction, game_over, some InputSignal.force_move)
      else if (key = KEY_UP ∧ direction ≠ KEY_DOWN) ∨
              (key = KEY_DOWN ∧ direction ≠ KEY_UP) ∨
              (key = KEY_LEFT ∧ direction ≠ KEY_RIGHT) ∨
              (key = KEY_RIGHT ∧ direction ≠ KEY_LEFT) then
        (key, game_over, some InputSignal.force_move)
      else if key = 113 ∨ key = 27 then
        (direction, true, none)
      else
        (direction, game_over, none)
    else if key = 113 ∨ key = 27 then
      (direction, true, none)
    else
      (direction, game_over, none)
  else
    (direction, game_over, none)

/-- The `new_head` computation of `SnakeGame.move_snake`
(src/snake_game.py lines 133-142): offset the head one cell in the
current direction; an unrecognised direction value leaves the head in
place (the final `else` of the source). -/
def new_head_calc (head : Pos) (direction : ℤ) : Pos :=
  if direction = KEY_UP then (head.1 - 1, head.2)
  else if direction = KEY_DOWN then (head.1 + 1, head.2)
  else if direction = KEY_LEFT then (head.1, head.2 - 1)
  else if direction = KEY_RIGHT then (head.1, head.2 + 1)
  else head

/-- The snake transformation of `SnakeGame.move_snake` (src/snake_game.py
lines 129-153): compute the new head from the current direction, insert it
at index 0, and pop the tail unless the new head is on the food.  The
returned boolean is the `new_head == self.food` test of line 148, on which
the source increments the score by 10 and regenerates the food (modelled
separately, see `tick`). -/
def move_snake (snake : List Pos) (direction : ℤ) (food : Pos) :
    List Pos × Bool :=
  let new_head := new_head_calc snake.headI direction
  let snake1 := new_head :: snake
  if new_head = food then (snake1, true) else (snake1.dropLast, false)

/-- `SnakeGame.check_collision` (src/snake_game.py lines 155-172): the head
is `snake[0]`, walls are row `0`, row `height-1`, col `0` and col
`width-1`, self-collision is membership of the head in `snake[1:]`, and
obstacle collision is membership in the obstacle list. -/
def check_collision (snake : List Pos) (height width : ℤ)
    (obstacles : List Pos) : Bool :=
  let head := snake.headI
  if head.1 = 0 ∨ head.1 = height - 1 ∨ head.2 = 0 ∨ head.2 = width - 1 then
    true
  else if head ∈ snake.tail then true
  else if head ∈ obstacles then true
  else false

/-- `random.randint a b` drawing the entropy value `r` from the stream:
for `a ≤ b` the result lies in `[a, b]`, and every value of `[a, b]` is
reached by some entropy value. -/
def randint (a b : ℤ) (r : ℤ) : ℤ := a + r % (b - a + 1)

/-- The initial snake of `SnakeGame.setup_screen` (src/snake_game.py lines
42-46): three cells in the middle of the screen, head first; `//` is
Python floor division. -/
def init_snake (height width : ℤ) : List Pos :=
  [(Int.fdiv height 2, Int.fdiv width 2),
   (Int.fdiv height 2, Int.fdiv width 2 - 1),
   (Int.fdiv height 2, Int.fdiv width 2 - 2)]

/-- The difficulty strings `'easy' | 'medium' | 'hard' | 'insane'`. -/
inductive Difficulty : Type where
  | easy : Difficulty
  | medium : Difficulty
  | hard : Difficulty
  | insane : Difficulty
deriving DecidableEq, Repr

/-- The obstacle count chosen by `SnakeGame.create_obstacles`
(src/snake_game.py lines 68-79): 5 for medium, 10 for hard, 15 for insane;
on easy the method returns with no obstacles. -/
def obstacle_count : Difficulty → ℕ
  | Difficulty.easy => 0
  | Difficulty.medium => 5
  | Difficulty.hard => 10
  | Difficulty.insane => 15

/-- The sampling loop of `SnakeGame.create_obstacles` (src/snake_game.py
lines 81-93): until `count` obstacles are collected, sample a candidate
`[randint(2, height-3), randint(2, width-3)]` and accept it iff it avoids
the three starting snake cells (`forbidden`) and the obstacles already
chosen (`acc`).  Recursion is on the entropy stream; `none` models
exhaustion (the Python loop would spin forever). -/
def obstacles_loop (height width : ℤ) (forbidden : List Pos) :
    List (ℤ × ℤ) → ℕ → List Pos → Option (List Pos)
  | _, 0, acc => some acc
  | [], _ + 1, _ => none
  | (r, c) :: rest, n + 1, acc =>
    let obstacle : Pos := (randint 2 (height - 3) r, randint 2 (width - 3) c)
    if obstacle ∉ forbidden ∧ obstacle ∉ acc then
      obstacles_loop height width forbidden rest n (acc ++ [obstacle])
    else
      obstacles_loop height width forbidden rest (n + 1) acc

/-- `SnakeGame.create_obstacles` (src/snake_game.py lines 64-93); the
forbidden cells written inline at lines 88-90 are exactly the initial
snake cells of `init_snake`. -/
def create_obstacles (difficulty : Difficulty) (height width : ℤ)
    (stream : List (ℤ × ℤ)) : Option (List Pos) :=
  match difficulty with
  | Difficulty.easy => some []
  | d => obstacles_loop height width (init_snake height width) stream
      (obstacle_count d) []

/-- `SnakeGame.create_food` (src/snake_game.py lines 95-105): sample
`[randint(1, height-2), randint(1, width-2)]` until the candidate avoids
the snake and the obstacles.  Recursion is on the entropy stream; `none`
models exhaustion. -/
def create_food (height width : ℤ) (snake obstacles : List Pos) :
    List (ℤ × ℤ) → Option Pos
  | [] => none
  | (r, c) :: rest =>
    let food : Pos := (randint 1 (height - 2) r, randint 1 (width - 2) c)
    if food ∉ snake ∧ food ∉ obstacles then some food
    else create_food height width snake obstacles rest

/-- A leaderboard entry `{"name": ..., "score": ...}`. -/
structure Entry : Type where
  name : String
  score : ℤ
deriving DecidableEq, Repr

/-- The leaderboard JSON object: one entry list per difficulty key. -/
abbrev Leaderboard : Type := Difficulty → List Entry

/-- The default leaderboard built at src/snake_game.py line 208:
`{"easy": [], "medium": [], "hard": [], "insane": []}`. -/
def default_leaderboard : Leaderboard := fun _ => []

/-- The two exception classes caught by `load_leaderboard`
(src/snake_game.py line 206). -/
inductive LoadError : Type where
  | file_not_found : LoadError
  | json_decode_error : LoadError
deriving DecidableEq, Repr

/-- `SnakeGame.load_leaderboard` (src/snake_game.py lines 201-208) as a
function of the outcome of reading and parsing the store: a successful
parse is returned as is, and either caught exception (missing file,
malformed JSON) yields the default all-empty leaderboard.  The function is
total: no failure escapes to the caller. -/
def load_leaderboard (read_result : Except LoadError Leaderboard) :
    Leaderboard :=
  match read_result with
  | Except.ok board => board
  | Except.error _ => default_leaderboard

/-- `SnakeGame.is_high_score` (src/snake_game.py lines 218-229) applied to
a loaded leaderboard: always true with fewer than 10 entries, else compare
against the minimum stored score.  The `none` arm is unreachable under the
length guard (Python `min` would raise on an empty sequence). -/
def is_high_score (score : ℤ) (difficulty : Difficulty)
    (board : Leaderboard) : Bool :=
  let difficulty_scores := board difficulty
  if difficulty_scores.length < 10 then true
  else
    match (difficulty_scores.map Entry.score).min? with
    | some lowest_score => lowest_score < score
    | none => true

/-- One insertion step of a stable descending sort by score: the new entry
goes after every existing entry of score greater than or equal to its own. -/
def insert_desc (e : Entry) : List Entry → List Entry
  | [] => [e]
  | x :: xs => if e.score ≤ x.score then x :: insert_desc e xs
               else e :: x :: xs

/-- `leaderboard[difficulty].sort(key=lambda x: x['score'], reverse=True)`
(src/snake_game.py line 240): a stable sort, descending by score.  Entries
are inserted left to right by `insert_desc`, so entries of equal score
keep their original relative order, as Python's stable sort does. -/
def sort_by_score_desc (l : List Entry) : List Entry :=
  l.foldl (fun acc e => insert_desc e acc) []

/-- `SnakeGame.add_high_score` (src/snake_game.py lines 231-244) applied
to a loaded leaderboard: append the new entry to the difficulty's list,
sort that list descending by score, truncate it to 10, and leave the
other difficulties as loaded. -/
def add_high_score (name : String) (score : ℤ) (difficulty : Difficulty)
    (board : Leaderboard) : Leaderboard :=
  fun d =>
    if d = difficulty then
      (sort_by_score_desc (board difficulty ++ [⟨name, score⟩])).take 10
    else board d

/-- The mutable state of `SnakeGame` used by one iteration of the
`play_game` loop. -/
structure GameState : Type where
  snake : List Pos
  direction : ℤ
  food : Pos
  score : ℤ
  obstacles : List Pos
  height : ℤ
  width : ℤ
  last_move_time : ℚ
  move_interval : ℚ
  game_over : Bool
deriving Repr

/-- The `should_move` computation of `SnakeGame.play_game`
(src/snake_game.py lines 491-502): move when the move interval has
elapsed, or when a force-move was signalled and at least `0.05` seconds
have elapsed. -/
def should_move_calc (now last_move_time move_interval : ℚ)
    (input_result : Option InputSignal) : Bool :=
  if move_interval ≤ now - last_move_time then true
  else if input_result = some InputSignal.force_move then
    if (0.05 : ℚ) ≤ now - last_move_time then true else false
  else false

/-- One iteration of the `while not self.game_over` loop of
`SnakeGame.play_game` (src/snake_game.py lines 481-547), without the
drawing calls: poll input, decide whether to move, and if so move the
snake (regenerating food and adding 10 points when it was eaten, drawing
fresh entropy from `stream`), then check collisions.  The `break` on
collision at line 514 ends the loop; it is modelled by setting `game_over`
and, faithfully to the source, it skips the `last_move_time` update of
line 538.  `none` models exhaustion of the food entropy stream. -/
def tick (st : GameState) (now : ℚ) (key : ℤ) (stream : List (ℤ × ℤ)) :
    Option GameState :=
  let gi := get_input key st.direction st.game_over
  let st1 : GameState := { st with direction := gi.1, game_over := gi.2.1 }
  if should_move_calc now st1.last_move_time st1.move_interval gi.2.2 then
    let ms := move_snake st1.snake st1.direction st1.food
    let score1 := if ms.2 then st1.score + 10 else st1.score
    let food1? := if ms.2 then
        create_food st1.height st1.width ms.1 st1.obstacles stream
      else some st1.food
    match food1? with
    | none => none
    | some food1 =>
      if check_collision ms.1 st1.height st1.width st1.obstacles then
        some { st1 with snake := ms.1, food := food1, score := score1,
                        game_over := true }
      else
        some { st1 with snake := ms.1, food := food1, score := score1,
                        last_move_time := now }
  else
    some st1

/-- Iterated movement from the initial snake: each element of `moves`
supplies the direction and the food position of one `move_snake` call.
Direction changes and food regeneration do not touch the snake list, so
this captures every snake list reachable during a game. -/
def run_moves (height width : ℤ) (moves : List (ℤ × Pos)) : List Pos :=
  moves.foldl (fun s m => (move_snake s m.1 m.2).1) (init_snake height width)

/-- A state about to move its head from row 1 into the top wall: the move
interval (1 s) has elapsed at `now = 5`. -/
def tick_cex_state : GameState :=
  ⟨[(1, 5), (1, 4), (1, 3)], KEY_UP, (9, 9), 0, [], 10, 10, 0, 1, false⟩

/-- A state moving right in open space: the move interval (1 s) has
elapsed at `now = 5` and the move is collision-free. -/
def tick_check_state : GameState :=
  ⟨[(5, 5), (5, 4), (5, 3)], KEY_RIGHT, (9, 9), 0, [], 10, 10, 0, 1, false⟩

/-- C1: for every non-empty snake, direction among the four arrow keys,
and food position, `move_snake` prepends a new head offset one cell in the
direction; the length grows by one exactly when the new head is the food,
and is unchanged otherwise. -/
theorem move_snake_growth (snake : List Pos) (direction : ℤ) (food : Pos)
    (hne : snake ≠ [])
    (hdir : direction = KEY_UP ∨ direction = KEY_DOWN ∨
      direction = KEY_LEFT ∨ direction = KEY_RIGHT) :
    new_head_calc snake.headI direction =
      (if direction = KEY_UP then (snake.headI.1 - 1, snake.headI.2)
       else if direction = KEY_DOWN then (snake.headI.1 + 1, snake.headI.2)
       else if direction = KEY_LEFT then (snake.headI.1, snake.headI.2 - 1)
       else (snake.headI.1, snake.headI.2 + 1)) ∧
    (move_snake snake direction food).1 =
      new_head_calc snake.headI direction ::
        (if new_head_calc snake.headI direction = food then snake
         else snake.dropLast) ∧
    (move_snake snake direction food).1.length =
      (if new_head_calc snake.headI direction = food then snake.length + 1
       else snake.length) := by
  refine ⟨?_, ?_, ?_⟩
  · rcases hdir with h | h | h | h <;> subst h <;>
      simp [new_head_calc, KEY_UP, KEY_DOWN, KEY_LEFT, KEY_RIGHT]
  · by_cases hf : new_head_calc snake.headI direction = food
    · simp [move_snake, hf]
    · simp [move_snake, hf, List.dropLast_cons_of_ne_nil hne]
  · by_cases hf : new_head_calc snake.headI direction = food
    · simp [move_snake, hf]
    · simp [move_snake, hf]

/-- C1 witness: a 3-segment snake at rows 10, moving right onto the food
at (10, 11): the head advances one column and the snake grows to 4. -/
theorem move_snake_growth_check :
    new_head_calc ([((10:ℤ),(10:ℤ)), (10,9), (10,8)] : List Pos).headI KEY_RIGHT =
      (if KEY_RIGHT = KEY_UP then (([((10:ℤ),(10:ℤ)), (10,9), (10,8)] : List Pos).headI.1 - 1, ([((10:ℤ),(10:ℤ)), (10,9), (10,8)] : List Pos).headI.2)
       else if KEY_RIGHT = KEY_DOWN then (([((10:ℤ),(10:ℤ)), (10,9), (10,8)] : List Pos).headI.1 + 1, ([((10:ℤ),(10:ℤ)), (10,9), (10,8)] : List Pos).headI.2)
       else if KEY_RIGHT = KEY_LEFT then (([((10:ℤ),(10:ℤ)), (10,9), (10,8)] : List Pos).headI.1, ([((10:ℤ),(10:ℤ)), (10,9), (10,8)] : List Pos).headI.2 - 1)
       else (([((10:ℤ),(10:ℤ)), (10,9), (10,8)] : List Pos).headI.1, ([((10:ℤ),(10:ℤ)), (10,9), (10,8)] : List Pos).headI.2 + 1)) ∧
    (move_snake [((10:ℤ),(10:ℤ)), (10,9), (10,8)] KEY_RIGHT (10,11)).1 =
      new_head_calc ([((10:ℤ),(10:ℤ)), (10,9), (10,8)] : List Pos).headI KEY_RIGHT ::
        (if new_head_calc ([((10:ℤ),(10:ℤ)), (10,9), (10,8)] : List Pos).headI KEY_RIGHT = ((10:ℤ),(11:ℤ)) then ([((10:ℤ),(10:ℤ)), (10,9), (10,8)] : List Pos)
         else ([((10:ℤ),(10:ℤ)), (10,9), (10,8)] : List Pos).dropLast) ∧
    (move_snake [((10:ℤ),(10:ℤ)), (10,9), (10,8)] KEY_RIGHT (10,11)).1.length =
      (if new_head_calc ([((10:ℤ),(10:ℤ)), (10,9), (10,8)] : List Pos).headI KEY_RIGHT = ((10:ℤ),(11:ℤ)) then ([((10:ℤ),(10:ℤ)), (10,9), (10,8)] : List Pos).length + 1
       else ([((10:ℤ),(10:ℤ)), (10,9), (10,8)] : List Pos).length) :=
  move_snake_growth [((10:ℤ),(10:ℤ)), (10,9), (10,8)] KEY_RIGHT (10,11)
    (by decide) (Or.inr (Or.inr (Or.inr rfl)))

/-- C2: `check_collision` on a snake with head `head` and body `body`
returns true exactly when the head is on a wall cell (row 0, row
height-1, col 0 or col width-1), or equals another segment of the snake,
or is an obstacle. -/
theorem check_collision_iff (head : Pos) (body : List Pos)
    (height width : ℤ) (obstacles : List Pos) :
    check_collision (head :: body) height width obstacles = true ↔
      ((head.1 = 0 ∨ head.1 = height - 1 ∨ head.2 = 0 ∨ head.2 = width - 1) ∨
       head ∈ body ∨ head ∈ obstacles) := by
  simp only [check_collision, List.headI_cons, List.tail_cons]
  split_ifs with h1 h2 h3 <;> simp_all

/-- C3: an input key that is the same-axis opposite of the current
direction is ignored: the direction is unchanged, the `game_over` flag is
unchanged, and no force-move signal is emitted. -/
theorem get_input_reversal (direction key : ℤ) (game_over : Bool)
    (hrev : (direction = KEY_UP ∧ key = KEY_DOWN) ∨
            (direction = KEY_DOWN ∧ key = KEY_UP) ∨
            (direction = KEY_LEFT ∧ key = KEY_RIGHT) ∨
            (direction = KEY_RIGHT ∧ key = KEY_LEFT)) :
    get_input key direction game_over = (direction, game_over, none) := by
  rcases hrev with ⟨h1, h2⟩ | ⟨h1, h2⟩ | ⟨h1, h2⟩ | ⟨h1, h2⟩ <;>
    subst h1 <;> subst h2 <;> cases game_over <;> decide

/-- C3 witness: moving right, the left key is ignored. -/
theorem get_input_reversal_check :
    get_input KEY_LEFT KEY_RIGHT false = (KEY_RIGHT, false, none) :=
  get_input_reversal KEY_RIGHT KEY_LEFT false
    (Or.inr (Or.inr (Or.inr ⟨rfl, rfl⟩)))

theorem randint_range (a b r : ℤ) (h : a ≤ b) :
    a ≤ randint a b r ∧ randint a b r ≤ b := by
  have hm : (0:ℤ) < b - a + 1 := by omega
  have h1 : 0 ≤ r % (b - a + 1) := Int.emod_nonneg r (by omega)
  have h2 : r % (b - a + 1) < b - a + 1 := Int.emod_lt_of_pos r hm
  unfold randint
  omega

theorem obstacles_loop_mem (height width : ℤ) (forbidden : List Pos)
    (hh : 5 ≤ height) (hw : 5 ≤ width) :
    ∀ (stream : List (ℤ × ℤ)) (count : ℕ) (acc obs : List Pos),
      (∀ p ∈ acc, (2 ≤ p.1 ∧ p.1 ≤ height - 3) ∧ (2 ≤ p.2 ∧ p.2 ≤ width - 3)) →
      obstacles_loop height width forbidden stream count acc = some obs →
      ∀ p ∈ obs, (2 ≤ p.1 ∧ p.1 ≤ height - 3) ∧ (2 ≤ p.2 ∧ p.2 ≤ width - 3) := by
  intro stream
  induction stream with
  | nil =>
    intro count acc obs hacc heq
    cases count with
    | zero =>
      simp only [obstacles_loop, Option.some.injEq] at heq
      subst heq; exact hacc
    | succ n => simp [obstacles_loop] at heq
  | cons hd tl ih =>
    intro count acc obs hacc heq
    cases count with
    | zero =>
      simp only [obstacles_loop, Option.some.injEq] at heq
      subst heq; exact hacc
    | succ n =>
      obtain ⟨r, c⟩ := hd
      rw [obstacles_loop] at heq
      split at heq
      · refine ih n _ obs ?_ heq
        intro p hp
        rcases List.mem_append.mp hp with hp' | hp'
        · exact hacc p hp'
        · rcases List.mem_singleton.mp hp' with rfl
          exact ⟨(randint_range 2 (height - 3) r (by omega)).imp id id,
                 (randint_range 2 (width - 3) c (by omega)).imp id id⟩
      · exact ih (n + 1) acc obs hacc heq

theorem create_food_range (height width : ℤ) (snake obstacles : List Pos)
    (hh : 3 ≤ height) (hw : 3 ≤ width) :
    ∀ (stream : List (ℤ × ℤ)) (f : Pos),
      create_food height width snake obstacles stream = some f →
      (1 ≤ f.1 ∧ f.1 ≤ height - 2) ∧ (1 ≤ f.2 ∧ f.2 ≤ width - 2) := by
  intro stream
  induction stream with
  | nil => intro f h; simp [create_food] at h
  | cons hd tl ih =>
    intro f h
    obtain ⟨r, c⟩ := hd
    rw [create_food] at h
    split at h
    · have hx := (Option.some.injEq _ _).mp h
      subst hx
      exact ⟨randint_range 1 (height - 2) r (by omega),
             randint_range 1 (width - 2) c (by omega)⟩
    · exact ih f h

/-- C5: every obstacle produced by `create_obstacles` has row in
`[2, height-3]` and col in `[2, width-3]`, while every food position
produced by `create_food` has row in `[1, height-2]` and col in
`[1, width-2]`: obstacles avoid the outer two rings, food only the outer
one. -/
theorem placement_ranges :
    (∀ (difficulty : Difficulty) (height width : ℤ) (stream : List (ℤ × ℤ))
        (obs : List Pos), 5 ≤ height → 5 ≤ width →
        create_obstacles difficulty height width stream = some obs →
        ∀ p ∈ obs, (2 ≤ p.1 ∧ p.1 ≤ height - 3) ∧ (2 ≤ p.2 ∧ p.2 ≤ width - 3)) ∧
    (∀ (height width : ℤ) (snake obstacles : List Pos)
        (stream : List (ℤ × ℤ)) (f : Pos), 3 ≤ height → 3 ≤ width →
        create_food height width snake obstacles stream = some f →
        (1 ≤ f.1 ∧ f.1 ≤ height - 2) ∧ (1 ≤ f.2 ∧ f.2 ≤ width - 2)) := by
  constructor
  · intro difficulty height width stream obs hh hw heq p hp
    cases difficulty with
    | easy =>
      simp only [create_obstacles, Option.some.injEq] at heq
      subst heq
      simp at hp
    | medium =>
      exact obstacles_loop_mem height width _ hh hw stream _ [] obs
        (by simp) heq p hp
    | hard =>
      exact obstacles_loop_mem height width _ hh hw stream _ [] obs
        (by simp) heq p hp
    | insane =>
      exact obstacles_loop_mem height width _ hh hw stream _ [] obs
        (by simp) heq p hp
  · intro height width snake obstacles stream f hh hw heq
    exact create_food_range height width snake obstacles hh hw stream f heq

/-- C5 witness: on a 20x20 grid, five medium-difficulty obstacles drawn
from a concrete entropy stream land in rows and cols `[2, 17]`, and a
food drawn from a concrete stream lands in `[1, 18]`. -/
theorem placement_ranges_check :
    ((((2:ℤ) ≤ 2 ∧ (2:ℤ) ≤ 20 - 3) ∧ ((2:ℤ) ≤ 2 ∧ (2:ℤ) ≤ 20 - 3)) ∧
     (((1:ℤ) ≤ 1 ∧ (1:ℤ) ≤ 20 - 2) ∧ ((1:ℤ) ≤ 1 ∧ (1:ℤ) ≤ 20 - 2))) :=
  ⟨placement_ranges.1 Difficulty.medium 20 20 [(0,0),(1,0),(2,0),(3,0),(4,0)]
      [(2,2),(3,2),(4,2),(5,2),(6,2)] (by decide) (by decide) (by decide)
      (2,2) (by decide),
   placement_ranges.2 20 20 [] [] [(0,0)] (1,1) (by decide) (by decide)
      (by decide)⟩

/-- C6: `is_high_score` is true exactly when the difficulty's list has
fewer than 10 entries or the score strictly exceeds the minimum stored
score; in particular any score qualifies while fewer than 10 entries
exist. -/
theorem is_high_score_iff (score : ℤ) (difficulty : Difficulty)
    (board : Leaderboard) :
    (is_high_score score difficulty board = true ↔
      ((board difficulty).length < 10 ∨
       ∃ m, ((board difficulty).map Entry.score).min? = some m ∧ m < score)) ∧
    ((board difficulty).length < 10 →
      is_high_score score difficulty board = true) := by
  constructor
  · unfold is_high_score
    by_cases hlen : (board difficulty).length < 10
    · simp [hlen]
    · simp only [hlen, if_neg, not_false_iff, false_or]
      cases hmin : ((board difficulty).map Entry.score).min? with
      | none =>
        exfalso
        have : (board difficulty).map Entry.score = [] :=
          List.min?_eq_none_iff.mp hmin
        have : (board difficulty).length = 0 := by
          simpa using congrArg List.length this
        omega
      | some m =>
        simp [hmin, decide_eq_true_iff]
  · intro h
    unfold is_high_score
    simp [h]

/-- C6 witness: with the empty leaderboard, a score of 0 qualifies. -/
theorem is_high_score_iff_check :
    is_high_score 0 Difficulty.easy default_leaderboard = true :=
  (is_high_score_iff 0 Difficulty.easy default_leaderboard).2 (by decide)

theorem mem_insert_desc (e a : Entry) (l : List Entry) :
    a ∈ insert_desc e l ↔ a = e ∨ a ∈ l := by
  induction l with
  | nil => simp [insert_desc]
  | cons x xs ih =>
    unfold insert_desc
    split_ifs with h
    · simp only [List.mem_cons, ih]
      tauto
    · simp

theorem pairwise_insert_desc (e : Entry) (l : List Entry)
    (h : List.Pairwise (fun a b => b.score ≤ a.score) l) :
    List.Pairwise (fun a b => b.score ≤ a.score) (insert_desc e l) := by
  induction l with
  | nil => simp [insert_desc]
  | cons x xs ih =>
    rcases List.pairwise_cons.mp h with ⟨hx, hxs⟩
    unfold insert_desc
    split_ifs with hle
    · refine List.pairwise_cons.mpr ⟨?_, ih hxs⟩
      intro y hy
      rcases (mem_insert_desc e y xs).mp hy with rfl | hy'
      · exact hle
      · exact hx y hy'
    · refine List.pairwise_cons.mpr ⟨?_, h⟩
      intro y hy
      rcases List.mem_cons.mp hy with rfl | hy'
      · omega
      · have := hx y hy'
        omega

theorem sorted_sort_by_score_desc (l : List Entry) :
    List.Pairwise (fun a b => b.score ≤ a.score) (sort_by_score_desc l) := by
  have aux : ∀ (ms acc : List Entry),
      List.Pairwise (fun a b => b.score ≤ a.score) acc →
      List.Pairwise (fun a b => b.score ≤ a.score)
        (ms.foldl (fun acc e => insert_desc e acc) acc) := by
    intro ms
    induction ms with
    | nil => intro acc h; simpa using h
    | cons x xs ih =>
      intro acc h
      rw [List.foldl_cons]
      exact ih _ (pairwise_insert_desc x acc h)
  exact aux l [] (by simp)

/-- C7: starting from a sorted-descending entry list of length at most 10
for a difficulty, any sequence of `add_high_score` calls for that
difficulty leaves the stored list sorted non-increasing by score and of
length at most 10. -/
theorem add_high_score_invariant (board : Leaderboard)
    (difficulty : Difficulty) (calls : List (String × ℤ))
    (hs : List.Pairwise (fun a b : Entry => b.score ≤ a.score)
      (board difficulty))
    (hl : (board difficulty).length ≤ 10) :
    List.Pairwise (fun a b : Entry => b.score ≤ a.score)
      ((calls.foldl (fun b c => add_high_score c.1 c.2 difficulty b) board)
        difficulty) ∧
    ((calls.foldl (fun b c => add_high_score c.1 c.2 difficulty b) board)
        difficulty).length ≤ 10 := by
  induction calls generalizing board with
  | nil => exact ⟨hs, hl⟩
  | cons c rest ih =>
    rw [List.foldl_cons]
    apply ih
    · show List.Pairwise _ ((add_high_score c.1 c.2 difficulty board)
        difficulty)
      unfold add_high_score
      rw [if_pos rfl]
      exact List.Pairwise.sublist (List.take_sublist _ _)
        (sorted_sort_by_score_desc _)
    · show ((add_high_score c.1 c.2 difficulty board) difficulty).length ≤ 10
      unfold add_high_score
      rw [if_pos rfl, List.length_take]
      exact inf_le_left

/-- C7 witness: two calls for the hard difficulty starting from the empty
leaderboard leave a sorted list of length at most 10. -/
theorem add_high_score_invariant_check :
    List.Pairwise (fun a b : Entry => b.score ≤ a.score)
      ((([("AB1", (50:ℤ)), ("CD2", 80)] : List (String × ℤ)).foldl
        (fun b c => add_high_score c.1 c.2 Difficulty.hard b)
        default_leaderboard) Difficulty.hard) ∧
    ((([("AB1", (50:ℤ)), ("CD2", 80)] : List (String × ℤ)).foldl
        (fun b c => add_high_score c.1 c.2 Difficulty.hard b)
        default_leaderboard) Difficulty.hard).length ≤ 10 :=
  add_high_score_invariant default_leaderboard Difficulty.hard
    [("AB1", 50), ("CD2", 80)] (by decide) (by decide)

/-- C8: loading from a missing or unparsable store recovers locally and
yields the empty entry list for every one of the four difficulties; no
failure escapes `load_leaderboard`. -/
theorem load_leaderboard_recovery (e : LoadError) (d : Difficulty) :
    load_leaderboard (Except.error e) d = [] := rfl

/-- C9: the snake starts with exactly 3 segments, `move_snake` never
shrinks it, and hence every snake reachable by iterated moves has at
least 3 segments. -/
theorem snake_length_invariant (height width : ℤ) :
    (init_snake height width).length = 3 ∧
    (∀ (snake : List Pos) (direction : ℤ) (food : Pos),
      snake.length ≤ (move_snake snake direction food).1.length) ∧
    (∀ moves : List (ℤ × Pos),
      3 ≤ (run_moves height width moves).length) := by
  have mono : ∀ (snake : List Pos) (direction : ℤ) (food : Pos),
      snake.length ≤ (move_snake snake direction food).1.length := by
    intro snake direction food
    unfold move_snake
    by_cases hf : new_head_calc snake.headI direction = food
    · simp [hf]
    · simp [hf]
  refine ⟨rfl, mono, ?_⟩
  intro moves
  unfold run_moves
  have aux : ∀ (ms : List (ℤ × Pos)) (s : List Pos), 3 ≤ s.length →
      3 ≤ (ms.foldl (fun s m => (move_snake s m.1 m.2).1) s).length := by
    intro ms
    induction ms with
    | nil => intro s h; simpa using h
    | cons m rest ih =>
      intro s h
      rw [List.foldl_cons]
      exact ih _ (le_trans h (mono s m.1 m.2))
  exact aux moves _ (by simp [init_snake])

/-- C10: `add_high_score` for one difficulty leaves the entry list of
every other difficulty exactly as it was. -/
theorem add_high_score_frame (name : String) (score : ℤ)
    (difficulty d2 : Difficulty) (board : Leaderboard)
    (hne : d2 ≠ difficulty) :
    add_high_score name score difficulty board d2 = board d2 := by
  unfold add_high_score
  exact if_neg hne

/-- C10 witness: adding to easy leaves the hard list untouched. -/
theorem add_high_score_frame_check :
    add_high_score "AB1" 50 Difficulty.easy default_leaderboard
      Difficulty.hard = default_leaderboard Difficulty.hard :=
  add_high_score_frame "AB1" 50 Difficulty.easy Difficulty.hard
    default_leaderboard (by decide)

/-- C4 (amended): a move occurs on a tick exactly when the move interval
has elapsed or a force-move was signalled at least 0.05 seconds after the
last move; when a move occurs and the moved snake has no collision,
`last_move_time` is reset to `now`; when the move collides, the loop
exits (`game_over`) with `last_move_time` unchanged; when no move occurs,
`last_move_time` is unchanged. -/
theorem tick_timing :
    (∀ (now last_move_time move_interval : ℚ)
        (input_result : Option InputSignal),
      should_move_calc now last_move_time move_interval input_result = true ↔
        (move_interval ≤ now - last_move_time ∨
         (input_result = some InputSignal.force_move ∧
          (0.05 : ℚ) ≤ now - last_move_time))) ∧
    (∀ (st : GameState) (now : ℚ) (key : ℤ) (stream : List (ℤ × ℤ))
        (st2 : GameState), tick st now key stream = some st2 →
      (should_move_calc now st.last_move_time st.move_interval
          (get_input key st.direction st.game_over).2.2 = false →
        st2.last_move_time = st.last_move_time ∧ st2.snake = st.snake) ∧
      (should_move_calc now st.last_move_time st.move_interval
          (get_input key st.direction st.game_over).2.2 = true →
        st2.snake = (move_snake st.snake
          (get_input key st.direction st.game_over).1 st.food).1 ∧
        (check_collision st2.snake st.height st.width st.obstacles = false →
          st2.last_move_time = now) ∧
        (check_collision st2.snake st.height st.width st.obstacles = true →
          st2.last_move_time = st.last_move_time ∧ st2.game_over = true))) := by
  constructor
  · intro now last_move_time move_interval input_result
    unfold should_move_calc
    split_ifs with h1 h2 h3 <;> simp_all
  · intro st now key stream st2 h
    simp only [tick] at h
    constructor
    · intro hsm
      rw [if_neg (by simp [hsm])] at h
      have h2 := (Option.some.injEq _ _).mp h
      subst h2
      exact ⟨rfl, rfl⟩
    · intro hsm
      rw [if_pos hsm] at h
      split at h
      · exact absurd h (by simp)
      · split at h
        · have h2 := (Option.some.injEq _ _).mp h
          subst h2
          refine ⟨rfl, ?_, ?_⟩
          · intro hc
            rename_i hcol
            exact absurd hc (by simp [hcol])
          · intro _
            exact ⟨rfl, rfl⟩
        · have h2 := (Option.some.injEq _ _).mp h
          subst h2
          refine ⟨rfl, ?_, ?_⟩
          · intro _
            rfl
          · intro hc
            rename_i hcol
            exact absurd hc (by simp [hcol])


/-- C4 counterexample: on this tick a move occurs (the timing condition
holds and the snake list changes), the move hits the top wall, and
`last_move_time` stays 0 instead of being reset to `now = 5`: the break
at src/snake_game.py line 514 skips the update at line 538. -/
theorem tick_timing_cex :
    should_move_calc 5 tick_cex_state.last_move_time
      tick_cex_state.move_interval
      (get_input (-1) tick_cex_state.direction
        tick_cex_state.game_over).2.2 = true ∧
    (tick tick_cex_state 5 (-1) []).map GameState.snake =
      some [(0, 5), (1, 5), (1, 4)] ∧
    tick_cex_state.snake ≠ [(0, 5), (1, 5), (1, 4)] ∧
    (tick tick_cex_state 5 (-1) []).map GameState.game_over = some true ∧
    (tick tick_cex_state 5 (-1) []).map GameState.last_move_time =
      some tick_cex_state.last_move_time ∧
    tick_cex_state.last_move_time ≠ (5 : ℚ) := by
  have hgi : get_input (-1) tick_cex_state.direction
      tick_cex_state.game_over = (KEY_UP, false, none) := by decide
  have hsm : should_move_calc 5 tick_cex_state.last_move_time
      tick_cex_state.move_interval none = true := by
    unfold should_move_calc tick_cex_state
    norm_num
  have hms : move_snake tick_cex_state.snake KEY_UP tick_cex_state.food =
      ([(0, 5), (1, 5), (1, 4)], false) := by decide
  have hcol : check_collision [((0:ℤ), (5:ℤ)), (1, 5), (1, 4)] 10 10 [] =
      true := by decide
  have htick : tick tick_cex_state 5 (-1) [] =
      some ⟨[(0, 5), (1, 5), (1, 4)], KEY_UP, (9, 9), 0, [], 10, 10, 0, 1,
        true⟩ := by
    simp only [tick, hgi]
    rw [if_pos (by exact hsm)]
    simp only [hms]
    norm_num [tick_cex_state, hcol]
  refine ⟨?_, ?_, ?_, ?_, ?_, ?_⟩
  · rw [hgi]; exact hsm
  · rw [htick]; rfl
  · decide
  · rw [htick]; rfl
  · rw [htick]; rfl
  · unfold tick_cex_state
    norm_num


/-- C4 witness: at `now = 5` the timing condition holds, the move is
applied, and `last_move_time` is reset to 5. -/
theorem tick_timing_check :
    should_move_calc 5 0 1 none = true ∧
    (tick tick_check_state 5 (-1) []).map GameState.last_move_time =
      some (5 : ℚ) := by
  have hgi : get_input (-1) tick_check_state.direction
      tick_check_state.game_over = (KEY_RIGHT, false, none) := by decide
  have hsm : should_move_calc 5 tick_check_state.last_move_time
      tick_check_state.move_interval
      (get_input (-1) tick_check_state.direction
        tick_check_state.game_over).2.2 = true := by
    rw [hgi]
    unfold should_move_calc tick_check_state
    norm_num
  have hms : move_snake tick_check_state.snake KEY_RIGHT
      tick_check_state.food = ([(5, 6), (5, 5), (5, 4)], false) := by decide
  have hcol : check_collision [((5:ℤ), (6:ℤ)), (5, 5), (5, 4)] 10 10 [] =
      false := by decide
  have htick : tick tick_check_state 5 (-1) [] =
      some ⟨[(5, 6), (5, 5), (5, 4)], KEY_RIGHT, (9, 9), 0, [], 10, 10, 5, 1,
        false⟩ := by
    simp only [tick, hgi]
    rw [if_pos (by rw [hgi] at hsm; exact hsm)]
    simp only [hms]
    norm_num [tick_check_state, hcol]
  constructor
  · exact (tick_timing.1 5 0 1 none).mpr (Or.inl (by norm_num))
  · have h2 := ((tick_timing.2 tick_check_state 5 (-1) [] _ htick).2 hsm).2.1
      (by rw [show (tick_check_state.height) = (10:ℤ) from rfl]; exact hcol)
    rw [htick]
    exact congrArg some h2
